import Mathlib

/-!
Verification of the rjwedding-backend service (files `src/data.py`, `src/app.py`)
against its natural-language specification.

The Python code is shallowly embedded: the `WeddingGuestGroup` odmantic model
becomes a Lean structure, the Mongo collection becomes a `Store` (a list of
documents plus a fresh-id counter), the pandas `DataFrame` of an uploaded CSV
becomes a `CSVTable` (column names plus rows of optional string cells, `none`
standing for a pandas null/NaN), and each FastAPI handler becomes a function
returning `Except HError` (an `HTTPException` with status and detail).
-/

set_option autoImplicit false

namespace Wedding

/-- Embeds `fastapi.HTTPException` (status code and detail message). -/
structure HError where
  status : Nat
  detail : String
deriving DecidableEq, Repr

/-- Is this `Except` a success?  (`Except.isOk` spelled out locally.) -/
def isOkE {ε α : Type} : Except ε α → Bool
  | .ok _ => true
  | .error _ => false

/--
Embeds the odmantic model `WeddingGuestGroup` of `src/data.py`.  The `id`
field stands for the Mongo primary key that odmantic adds to every model
(a fresh ObjectId per constructed document); default values mirror the
`Field(default=...)` declarations of the source.
-/
structure WeddingGuestGroup where
  id : Nat
  display_name : String
  party_count : Int
  ceremony_count : Int
  plus_one : Bool := false
  party_attendance : Int := -1
  ceremony_attendance : Int := -1
  address : Option String := none
  postcode : Option String := none
  email : Option String := none
  phone : Option String := none
  dietary_requirements : Option String := none
  song_choice : Option String := none
  admin : Bool := false
  code : String
  parking_required : Bool := false
deriving DecidableEq, Repr

/--
Python's membership test `"&" in self.display_name`: since the marker is a
single character, substring containment coincides with character containment.
-/
def hasJointMarker (s : String) : Bool := s.data.contains '&'

/-- Embeds the `party_total` property of `WeddingGuestGroup` (`src/data.py`). -/
def party_total (g : WeddingGuestGroup) : Int :=
  if g.party_attendance < 1 then 0
  else if hasJointMarker g.display_name = false then
    (if g.plus_one then 2 else 1)
  else g.party_count

/-- Embeds the `ceremony_total` property of `WeddingGuestGroup` (`src/data.py`). -/
def ceremony_total (g : WeddingGuestGroup) : Int :=
  if g.ceremony_attendance < 1 then 0
  else if hasJointMarker g.display_name = false then
    (if g.plus_one then 2 else 1)
  else g.ceremony_count

/-- Embeds the `responded` property of `WeddingGuestGroup` (`src/data.py`). -/
def responded (g : WeddingGuestGroup) : Int :=
  if g.ceremony_count > 0 then
    (if g.ceremony_attendance = -1 ∧ g.party_attendance = -1 then 0 else 1)
  else if g.party_attendance = -1 then 0
  else 1

/--
`party_total` as the specification words it: 0 when the party response is not
an acceptance; for a joint invite (name carries the marker) the stored
`party_count`; otherwise 2 with a plus-one and 1 without.
-/
def party_totalSpec (g : WeddingGuestGroup) : Int :=
  if g.party_attendance < 1 then 0
  else if hasJointMarker g.display_name then g.party_count
  else if g.plus_one then 2
  else 1

/-- `ceremony_total` as the specification words it (same rule on the ceremony fields). -/
def ceremony_totalSpec (g : WeddingGuestGroup) : Int :=
  if g.ceremony_attendance < 1 then 0
  else if hasJointMarker g.display_name then g.ceremony_count
  else if g.plus_one then 2
  else 1

/--
`responded` as the specification words it: a group invited to the ceremony
(`ceremony_count` > 0) counts as responded once either answer differs from -1;
a group with no ceremony invite only needs a party answer.
-/
def respondedSpec (g : WeddingGuestGroup) : Int :=
  if g.ceremony_count > 0 then
    (if g.party_attendance ≠ -1 ∨ g.ceremony_attendance ≠ -1 then 1 else 0)
  else if g.party_attendance ≠ -1 then 1
  else 0

lemma party_total_eq_spec (g : WeddingGuestGroup) : party_total g = party_totalSpec g := by
  unfold party_total party_totalSpec
  rcases h : hasJointMarker g.display_name <;> simp [h]

lemma ceremony_total_eq_spec (g : WeddingGuestGroup) :
    ceremony_total g = ceremony_totalSpec g := by
  unfold ceremony_total ceremony_totalSpec
  rcases h : hasJointMarker g.display_name <;> simp [h]

/--
C1: for every `WeddingGuestGroup`, `party_total` is 0 when
`party_attendance < 1`; otherwise, when `display_name` has no "&" marker it is
2 with `plus_one` and 1 without, and for a joint name it is the stored
`party_count`; `ceremony_total` is the same rule on the ceremony fields.
-/
theorem party_and_ceremony_totals_match_spec (g : WeddingGuestGroup) :
    party_total g = party_totalSpec g ∧ ceremony_total g = ceremony_totalSpec g :=
  ⟨party_total_eq_spec g, ceremony_total_eq_spec g⟩

/--
C7: `responded` is 1 exactly when the group answered for the sub-events it is
invited to: with `ceremony_count > 0`, when either attendance differs from -1;
otherwise when `party_attendance` differs from -1; else it is 0.
-/
theorem responded_matches_spec (g : WeddingGuestGroup) :
    responded g = respondedSpec g := by
  unfold responded respondedSpec
  by_cases h : g.ceremony_count > 0 <;>
    by_cases hp : g.party_attendance = -1 <;>
    by_cases hc : g.ceremony_attendance = -1 <;>
    simp [h, hp, hc]

/--
The Mongo collection of `WeddingGuestGroup` documents, as the odmantic
`AIOEngine` exposes it: the documents in insertion order plus a counter
producing fresh primary keys (standing for new ObjectIds).
-/
structure Store where
  docs : List WeddingGuestGroup
  nextId : Nat
deriving DecidableEq, Repr

/-- Embeds `fetch_guest_group` of `src/app.py`: `engine.find_one` by code, 404 when absent. -/
def fetch_guest_group (s : Store) (code : String) : Except HError WeddingGuestGroup :=
  match s.docs.find? (fun g => g.code == code) with
  | some g => .ok g
  | none => .error ⟨404, "Invalid user code, please login"⟩

/-- Embeds `is_admin` of `src/app.py`: resolve the code, 403 unless the group is an admin. -/
def is_admin (s : Store) (code : String) : Except HError Unit :=
  match fetch_guest_group s code with
  | .error e => .error e
  | .ok g => if g.admin = false then
      .error ⟨403, "This action is only authorised for admins"⟩
    else .ok ()

/--
Embeds `engine.save`: upsert by primary key — replace the document carrying
the same id when one exists, otherwise append the new document.
-/
def save (s : Store) (g : WeddingGuestGroup) : Store :=
  if ∃ d ∈ s.docs, d.id = g.id then
    ⟨s.docs.map (fun d => if d.id = g.id then g else d), s.nextId⟩
  else ⟨s.docs ++ [g], max s.nextId (g.id + 1)⟩

/-- Embeds the `GET /{code}` handler `get_code` of `src/app.py`. -/
def get_code (s : Store) (code : String) : Except HError WeddingGuestGroup :=
  fetch_guest_group s code

/-- Response shape of `GET /admin/attendance`. -/
structure AttendanceResponse where
  party_count : Int
  ceremony_count : Int
deriving DecidableEq, Repr

/--
Embeds the `GET /admin/attendance` handler `get_attendance` of `src/app.py`.
The source handler takes no caller code and performs no admin check: its body
only sums `party_total` and `ceremony_total` over the whole collection.
-/
def get_attendance (s : Store) : Except HError AttendanceResponse :=
  .ok ⟨(s.docs.map party_total).sum, (s.docs.map ceremony_total).sum⟩

/-- Embeds the pydantic request model `RSVPRequest` of `src/data.py`. -/
structure RSVPRequest where
  code : String
  status : Int
  event : String
deriving DecidableEq, Repr

/-- Embeds the `POST /rsvp` handler of `src/app.py`. -/
def rsvp (s : Store) (r : RSVPRequest) : Except HError (Store × WeddingGuestGroup) :=
  match fetch_guest_group s r.code with
  | .error e => .error e
  | .ok grp =>
    if r.event = "party" then
      let g2 := { grp with party_attendance := r.status }
      .ok (save s g2, g2)
    else if r.event = "ceremony" then
      let g2 := { grp with ceremony_attendance := r.status }
      .ok (save s g2, g2)
    else .error ⟨400, "Invalid event. Must be party or ceremony."⟩

/-!
## The uploaded CSV table

`pd.read_csv` yields a `DataFrame`; we embed the parsed table directly:
a list of column names and one list of cells per row, a cell being
`none` for a pandas null (NaN) and `some v` for the cell text `v`.
-/

/-- A parsed CSV table (the pandas `DataFrame` handed to `database_validation`). -/
structure CSVTable where
  cols : List String
  rows : List (List (Option String))
deriving DecidableEq, Repr

/-- Index of the first column with the given name (`DataFrame` column lookup). -/
def colIdx : List String → String → Option Nat
  | [], _ => none
  | c :: cs, name => if c = name then some 0 else (colIdx cs name).map (fun i => i + 1)

/-- The cell of row `r` in the named column. -/
def rowCell (t : CSVTable) (r : List (Option String)) (c : String) : Option String :=
  match colIdx t.cols c with
  | some i => r.getD i none
  | none => none

/-- The named column as a list of cells (`data[c]`). -/
def column (t : CSVTable) (c : String) : List (Option String) :=
  match colIdx t.cols c with
  | some i => t.rows.map (fun r => r.getD i none)
  | none => []

/-- Replace the named column by mapping `f` over its cells (`data[c] = data[c].apply(f)`). -/
def mapCol (t : CSVTable) (c : String) (f : Option String → Option String) : CSVTable :=
  match colIdx t.cols c with
  | some i => ⟨t.cols, t.rows.map (fun r => r.set i (f (r.getD i none)))⟩
  | none => t

/-- pandas `Series.nunique`: number of distinct non-null values. -/
def nunique (xs : List (Option String)) : Nat := ((xs.filterMap id).dedup).length

/-- pandas `data.isnull().any().sum() > 0`: some cell of some column is null. -/
def hasNull (t : CSVTable) : Bool :=
  t.rows.any (fun r => (List.range t.cols.length).any (fun i => (r.getD i none).isNone))

/-- Python `str(x).replace(" ", "")`: remove every space character (only U+0020). -/
def stripSpaces (s : String) : String := ⟨s.data.filter (fun c => c ≠ ' ')⟩

/--
Python `str(x)` on a cell; validated cells are never null, so the `"None"`
fallback (Python's `str(None)`) is never reached on the paths that use it.
-/
def strCell (o : Option String) : String := o.getD "None"

/-- The required columns of `database_validation` (`src/app.py`). -/
def requiredCols : List String := ["display_name", "party_count", "ceremony_count", "code"]

/--
Embeds `database_validation` of `src/app.py`: the four required columns, name
uniqueness, code uniqueness, presence of an "Admin" row, no null cells — in
that order — then the space-stripping of the code column, returning the
modified table.  (Detail strings are abbreviated where the source text uses
quotation marks.)
-/
def database_validation (data : CSVTable) : Except HError CSVTable :=
  if ¬ (∀ c ∈ requiredCols, c ∈ data.cols) then
    .error ⟨400, "Invalid database format. Must contain the columns: Name, Guest count, Wedding party, and Code"⟩
  else if nunique (column data "display_name") ≠ data.rows.length then
    .error ⟨400, "Invalid database. Cannot contain duplicate names."⟩
  else if nunique (column data "code") ≠ data.rows.length then
    .error ⟨400, "Invalid database. Cannot contain duplicate codes."⟩
  else if some "Admin" ∉ column data "display_name" then
    .error ⟨400, "Invalid database. Must contain an Admin."⟩
  else if hasNull data = true then
    .error ⟨400, "Invalid database. Cannot contain null values."⟩
  else .ok (mapCol data "code" (Option.map stripSpaces))

/-- Python `int(...)` on the decimal text of a guest-count cell. -/
def digitsToNat : List Char → Nat → Option Nat
  | [], acc => some acc
  | c :: rest, acc => if c.isDigit then digitsToNat rest (acc * 10 + (c.toNat - 48)) else none

/-- Parse a non-empty all-digit character list. -/
def parseDigits (cs : List Char) : Option Nat :=
  if cs.isEmpty then none else digitsToNat cs 0

/-- Python `int(str)` for plain decimal literals (raises, i.e. `none`, otherwise). -/
def pyInt (s : String) : Option Int :=
  match s.data with
  | '-' :: cs => (parseDigits cs).map (fun n => -(n : Int))
  | cs => (parseDigits cs).map (fun n => (n : Int))

/--
One iteration of the insert loop of `upload_database`: the `WeddingGuestGroup`
constructed from a validated row (`none` when `int(...)` would raise).  All
fields not passed to the constructor keep their model defaults.
-/
def buildGroup (df : CSVTable) (r : List (Option String)) (id : Nat) :
    Option WeddingGuestGroup :=
  match pyInt (strCell (rowCell df r "party_count")),
        pyInt (strCell (rowCell df r "ceremony_count")) with
  | some pc, some cc => some
      { id := id
        display_name := strCell (rowCell df r "display_name")
        party_count := pc
        ceremony_count := cc
        code := stripSpaces (strCell (rowCell df r "code"))
        admin := strCell (rowCell df r "display_name") == "Admin" }
  | _, _ => none

/--
The `for index, row in df.iterrows()` loop of `upload_database`: one
`engine.save` per row, collecting the new ids; a raising `int(...)` aborts the
loop (surfacing as a 500) with the rows saved so far still in the store.
-/
def insertRows (df : CSVTable) :
    List (List (Option String)) → Store → List Nat → Store × Except HError (List Nat)
  | [], s, ids => (s, .ok ids)
  | r :: rest, s, ids =>
    match buildGroup df r s.nextId with
    | some g => insertRows df rest ⟨s.docs ++ [g], s.nextId + 1⟩ (ids ++ [g.id])
    | none => (s, .error ⟨500, "Internal Server Error"⟩)

/--
Embeds the `POST /upload-database` handler of `src/app.py`: admin check, then
`database_validation`, then `engine.remove(WeddingGuestGroup)` (the whole
collection), then the row-by-row insert loop.  The returned store is the
collection after the call (unchanged whenever a check failed first).
-/
def upload_database (s : Store) (code : String) (t : CSVTable) :
    Store × Except HError (List Nat) :=
  match is_admin s code with
  | .error e => (s, .error e)
  | .ok _ =>
    match database_validation t with
    | .error e => (s, .error e)
    | .ok df => insertRows df df.rows ⟨[], s.nextId⟩ []

/-- The space-stripped code values of the uploaded table, in row order. -/
def strippedCodes (t : CSVTable) : List String :=
  (column t "code").map (fun o => stripSpaces (strCell o))

/--
`Modelled from the spec:` the spec's phrase "strip all whitespace characters"
(§4.3 step 6), used only to compare against the source's space-only stripping;
the source strips only U+0020.
-/
def stripAllWhitespace (s : String) : String := ⟨s.data.filter (fun c => ¬ c.isWhitespace)⟩

/-! ## Concrete fixtures used by counterexamples and witnesses -/

/-- The admin row of the pre-import store (grants `upload-database` access). -/
def bossGrp : WeddingGuestGroup :=
  { id := 0, display_name := "Admin", party_count := 1, ceremony_count := 1,
    admin := true, code := "boss" }

/-- A store holding only the admin row. -/
def aStore : Store := ⟨[bossGrp], 1⟩

/-- A well-formed upload: two rows, one the Admin row, one with a code holding a space. -/
def tGood : CSVTable :=
  ⟨["display_name", "party_count", "ceremony_count", "code"],
   [[some "Admin", some "1", some "1", some "adm"],
    [some "Bob", some "2", some "0", some "AB 12"]]⟩

/-- A table without the required columns (fails the schema check). -/
def tBadCols : CSVTable := ⟨["a"], [[some "1"], [some "2"]]⟩

/-- A non-admin guest group with code `g1` and no responses. -/
def g1 : WeddingGuestGroup :=
  { id := 0, display_name := "Test Group 1", party_count := 1, ceremony_count := 0,
    code := "g1" }

/-- A store whose only group is non-admin: no caller code resolves to an admin. -/
def noAdminStore : Store := ⟨[g1], 1⟩

/-- Pre-import store: the admin row plus an old guest whose code is `AB12`. -/
def oldGrp : WeddingGuestGroup :=
  { id := 1, display_name := "Old Guest", party_count := 1, ceremony_count := 0,
    code := "AB12" }

/-- Store before the imports considered in the replacement claims. -/
def preStore : Store := ⟨[bossGrp, oldGrp], 2⟩

/--
An upload the validator accepts although two codes collide once spaces are
stripped, and one code keeps a tab character: raw codes are pairwise distinct,
so the uniqueness check (which runs before stripping) passes.
-/
def tCollide : CSVTable :=
  ⟨["display_name", "party_count", "ceremony_count", "code"],
   [[some "Admin", some "1", some "1", some "adm"],
    [some "Alice", some "2", some "0", some "AB 12"],
    [some "Bobby", some "2", some "0", some "AB12"],
    [some "Cindy", some "2", some "0", some "X\t1"]]⟩

/-! ## List and table lemmas -/

lemma set_getD_ne {α : Type} :
    ∀ (r : List α) (i j : Nat) (v d : α), i ≠ j → (r.set i v).getD j d = r.getD j d := by
  intro r
  induction r with
  | nil => intro i j v d _; rfl
  | cons x xs ih =>
    intro i j v d hij
    cases i with
    | zero =>
      cases j with
      | zero => exact absurd rfl hij
      | succ j => simp [List.getD]
    | succ i =>
      cases j with
      | zero => simp [List.getD]
      | succ j =>
        simp only [List.set, List.getD, List.getElem?_cons_succ]
        exact ih i j v d (fun h => hij (by rw [h]))

lemma set_getD_apply (f : Option String → Option String) (hf : f none = none) :
    ∀ (r : List (Option String)) (i : Nat),
      (r.set i (f (r.getD i none))).getD i none = f (r.getD i none) := by
  intro r
  induction r with
  | nil => intro i; simpa [List.getD] using hf.symm
  | cons x xs ih =>
    intro i
    cases i with
    | zero => simp [List.getD]
    | succ i =>
      simp only [List.getD, List.getElem?_cons_succ, List.set]
      exact ih i

lemma colIdx_getD {cols : List String} {c : String} {i : Nat}
    (h : colIdx cols c = some i) : cols.getD i "" = c := by
  induction cols generalizing i with
  | nil => simp [colIdx] at h
  | cons x xs ih =>
    by_cases hx : x = c
    · simp [colIdx, hx] at h
      simp [← h, List.getD, hx]
    · simp only [colIdx, if_neg hx] at h
      rcases hj : colIdx xs c with _ | j
      · rw [hj] at h; simp at h
      · rw [hj] at h
        simp at h
        rw [← h]
        simpa [List.getD] using ih hj

lemma colIdx_ne {cols : List String} {a b : String} {i j : Nat}
    (ha : colIdx cols a = some i) (hb : colIdx cols b = some j) (hab : a ≠ b) : i ≠ j := by
  intro hij
  apply hab
  rw [← colIdx_getD ha, ← colIdx_getD hb, hij]

lemma colIdx_isSome_of_mem {cols : List String} {c : String} (h : c ∈ cols) :
    ∃ i, colIdx cols c = some i := by
  induction cols with
  | nil => cases h
  | cons x xs ih =>
    by_cases hx : x = c
    · exact ⟨0, by simp [colIdx, hx]⟩
    · rcases List.mem_cons.mp h with hcx | hmem
      · exact absurd hcx.symm hx
      · rcases ih hmem with ⟨i, hi⟩
        exact ⟨i + 1, by simp [colIdx, hx, hi]⟩

lemma mapCol_cols (t : CSVTable) (c : String) (f : Option String → Option String) :
    (mapCol t c f).cols = t.cols := by
  unfold mapCol
  rcases h : colIdx t.cols c with _ | i <;> simp

lemma mapCol_rows_length (t : CSVTable) (c : String) (f : Option String → Option String) :
    (mapCol t c f).rows.length = t.rows.length := by
  unfold mapCol
  rcases h : colIdx t.cols c with _ | i <;> simp

lemma column_length {t : CSVTable} {c : String} (h : c ∈ t.cols) :
    (column t c).length = t.rows.length := by
  rcases colIdx_isSome_of_mem h with ⟨i, hi⟩
  simp [column, hi]

lemma column_mapCol_ne {t : CSVTable} {a c : String}
    (f : Option String → Option String) (hac : a ≠ c) :
    column (mapCol t c f) a = column t a := by
  unfold column mapCol
  rcases hc : colIdx t.cols c with _ | i
  · rfl
  · simp only
    rcases ha : colIdx t.cols a with _ | j
    · rfl
    · simp only [List.map_map]
      refine List.map_congr_left (fun r _ => ?_)
      exact set_getD_ne r i j _ none (colIdx_ne hc ha (fun h => hac h.symm))

lemma column_mapCol_self {t : CSVTable} {c : String}
    {f : Option String → Option String} (hf : f none = none) :
    column (mapCol t c f) c = (column t c).map f := by
  unfold column mapCol
  rcases hc : colIdx t.cols c with _ | i
  · simp [hc]
  · simp only [hc, List.map_map]
    refine List.map_congr_left (fun r _ => ?_)
    exact set_getD_apply f hf r i

lemma rowCell_eq_getD {t : CSVTable} {c : String} {i : Nat}
    (h : colIdx t.cols c = some i) (r : List (Option String)) :
    rowCell t r c = r.getD i none := by
  simp [rowCell, h]

/-! ## Validation characterization -/

lemma validation_ok {t df : CSVTable} (h : database_validation t = .ok df) :
    df = mapCol t "code" (Option.map stripSpaces) ∧
    (∀ c ∈ requiredCols, c ∈ t.cols) ∧
    nunique (column t "display_name") = t.rows.length ∧
    nunique (column t "code") = t.rows.length ∧
    some "Admin" ∈ column t "display_name" ∧
    hasNull t = false := by
  unfold database_validation at h
  split_ifs at h with h1 h2 h3 h4 h5
  exact ⟨((Except.ok.injEq _ _).mp h).symm, h1, not_not.mp h2, not_not.mp h3,
    h4, by simpa using h5⟩

/-! ## Characterizing a successful import -/

lemma stripSpaces_idem (s : String) : stripSpaces (stripSpaces s) = stripSpaces s := by
  unfold stripSpaces
  rw [List.filter_filter]
  congr 1
  refine List.filter_congr (fun c _ => ?_)
  by_cases hc : c = ' ' <;> simp [hc]

lemma strip_strCell_collapse (o : Option String) :
    stripSpaces (strCell (Option.map stripSpaces o)) = stripSpaces (strCell o) := by
  cases o with
  | none => rfl
  | some a => simp [strCell, stripSpaces_idem]

lemma buildGroup_fields {df : CSVTable} {r : List (Option String)} {n : Nat}
    {g : WeddingGuestGroup} (h : buildGroup df r n = some g) :
    g.code = stripSpaces (strCell (rowCell df r "code")) ∧
    g.display_name = strCell (rowCell df r "display_name") ∧
    g.admin = (strCell (rowCell df r "display_name") == "Admin") ∧
    g.plus_one = false ∧ g.party_attendance = -1 ∧ g.ceremony_attendance = -1 ∧
    g.address = none ∧ g.postcode = none ∧ g.email = none ∧ g.phone = none ∧
    g.dietary_requirements = none ∧ g.song_choice = none ∧
    g.parking_required = false := by
  unfold buildGroup at h
  rcases hp : pyInt (strCell (rowCell df r "party_count")) with _ | pc <;> rw [hp] at h
  · simp at h
  rcases hc : pyInt (strCell (rowCell df r "ceremony_count")) with _ | cc <;> rw [hc] at h
  · simp at h
  simp only [Option.some.injEq] at h
  rw [← h]
  exact ⟨rfl, rfl, rfl, rfl, rfl, rfl, rfl, rfl, rfl, rfl, rfl, rfl, rfl⟩

/-- The relation between an uploaded row and the document inserted for it. -/
def RowBuilds (df : CSVTable) (r : List (Option String)) (g : WeddingGuestGroup) : Prop :=
  ∃ n, buildGroup df r n = some g

lemma insertRows_ok {df : CSVTable} :
    ∀ (rows : List (List (Option String))) (s : Store) (acc ids : List Nat) (s2 : Store),
      insertRows df rows s acc = (s2, .ok ids) →
      ∃ gs : List WeddingGuestGroup,
        s2.docs = s.docs ++ gs ∧ List.Forall₂ (RowBuilds df) rows gs := by
  intro rows
  induction rows with
  | nil =>
    intro s acc ids s2 h
    unfold insertRows at h
    rcases Prod.mk.injEq .. ▸ h with ⟨hs, _⟩
    exact ⟨[], by rw [← hs]; simp, List.Forall₂.nil⟩
  | cons r rest ih =>
    intro s acc ids s2 h
    unfold insertRows at h
    rcases hb : buildGroup df r s.nextId with _ | g <;> rw [hb] at h
    · rcases Prod.mk.injEq .. ▸ h with ⟨_, hsnd⟩
      exact absurd hsnd (by simp)
    · rcases ih _ _ _ _ h with ⟨gs, hdocs, hrel⟩
      refine ⟨g :: gs, ?_, List.Forall₂.cons ⟨s.nextId, hb⟩ hrel⟩
      rw [hdocs]
      simp

lemma forall2_map_eq {α β γ : Type} {R : α → β → Prop} {l1 : List α} {l2 : List β}
    (h : List.Forall₂ R l1 l2) (k : β → γ) (f : α → γ)
    (hfk : ∀ a b, R a b → k b = f a) : l2.map k = l1.map f := by
  induction h with
  | nil => rfl
  | cons hab _ ih => simp [ih, hfk _ _ hab]

lemma forall2_mem_right {α β : Type} {R : α → β → Prop} {l1 : List α} {l2 : List β}
    (h : List.Forall₂ R l1 l2) {b : β} (hb : b ∈ l2) : ∃ a ∈ l1, R a b := by
  induction h with
  | nil => cases hb
  | cons hab _ ih =>
    rcases List.mem_cons.mp hb with hb1 | hb2
    · exact ⟨_, List.mem_cons_self .., hb1 ▸ hab⟩
    · rcases ih hb2 with ⟨a, ha, har⟩
      exact ⟨a, List.mem_cons_of_mem _ ha, har⟩

/--
Decomposition of a successful `upload_database` call: validation passed and
the resulting collection is exactly the documents built from the validated
table's rows, in order, starting from the emptied collection.
-/
lemma upload_ok_state {s : Store} {c : String} {t : CSVTable}
    (h : isOkE (upload_database s c t).snd = true) :
    ∃ df gs, database_validation t = .ok df ∧
      (upload_database s c t).fst.docs = gs ∧
      List.Forall₂ (RowBuilds df) df.rows gs := by
  rcases ha : is_admin s c with e | u
  · have hu : upload_database s c t = (s, .error e) := by
      simp only [upload_database, ha]
    rw [hu] at h
    simp [isOkE] at h
  rcases hv : database_validation t with e | df
  · have hu : upload_database s c t = (s, .error e) := by
      simp only [upload_database, ha, hv]
    rw [hu] at h
    simp [isOkE] at h
  have hu : upload_database s c t = insertRows df df.rows ⟨[], s.nextId⟩ [] := by
    simp only [upload_database, ha, hv]
  rcases hi : insertRows df df.rows ⟨[], s.nextId⟩ [] with ⟨s2, res⟩
  rw [hu, hi] at h
  rcases res with e | ids
  · simp [isOkE] at h
  rcases insertRows_ok df.rows ⟨[], s.nextId⟩ [] ids s2 hi with ⟨gs, hdocs, hrel⟩
  refine ⟨df, gs, rfl, ?_, hrel⟩
  rw [hu, hi]
  simpa using hdocs

/-- After a successful import the stored codes are the space-stripped input codes, in order. -/
lemma upload_ok_codes {s : Store} {c : String} {t : CSVTable}
    (h : isOkE (upload_database s c t).snd = true) :
    (upload_database s c t).fst.docs.map (fun g => g.code) = strippedCodes t := by
  rcases upload_ok_state h with ⟨df, gs, hv, hdocs, hrel⟩
  rcases validation_ok hv with ⟨hdf, hcols, -, -, -, -⟩
  have hcodeMem : "code" ∈ t.cols := hcols "code" (by simp [requiredCols])
  rcases colIdx_isSome_of_mem hcodeMem with ⟨j, hj⟩
  have hjdf : colIdx df.cols "code" = some j := by rw [hdf, mapCol_cols]; exact hj
  have h1 : gs.map (fun g => g.code) =
      df.rows.map (fun r => stripSpaces (strCell (rowCell df r "code"))) :=
    forall2_map_eq hrel _ _ (fun r g hrg => by
      rcases hrg with ⟨n, hb⟩
      exact (buildGroup_fields hb).1)
  have h2 : df.rows.map (fun r => stripSpaces (strCell (rowCell df r "code"))) =
      (column df "code").map (fun o => stripSpaces (strCell o)) := by
    unfold column
    rw [hjdf, List.map_map]
    exact List.map_congr_left (fun r _ => by
      simp [Function.comp, rowCell_eq_getD hjdf])
  have h3 : (column df "code").map (fun o => stripSpaces (strCell o)) = strippedCodes t := by
    rw [hdf, column_mapCol_self (by rfl), List.map_map]
    unfold strippedCodes
    exact List.map_congr_left (fun o _ => by
      simpa [Function.comp] using strip_strCell_collapse o)
  rw [hdocs, h1, h2, h3]

/-- After a successful import the collection has exactly one document per input row. -/
lemma upload_ok_length {s : Store} {c : String} {t : CSVTable}
    (h : isOkE (upload_database s c t).snd = true) :
    (upload_database s c t).fst.docs.length = t.rows.length := by
  rcases upload_ok_state h with ⟨df, gs, hv, hdocs, hrel⟩
  rcases validation_ok hv with ⟨hdf, -, -, -, -, -⟩
  rw [hdocs, ← hrel.length_eq, hdf, mapCol_rows_length]

/-! ## Claim C2: validation failure leaves the store untouched -/

/--
C2: when the caller is an admin and any of the five validation checks rejects
the uploaded table, `upload_database` surfaces exactly that validation error
and returns with the stored collection identical to the one before the call —
no row deleted, no row inserted.
-/
theorem validation_failure_leaves_store_unchanged
    (s : Store) (c : String) (t : CSVTable) (e : HError)
    (ha : is_admin s c = .ok ()) (hv : database_validation t = .error e) :
    upload_database s c t = (s, .error e) := by
  unfold upload_database
  rw [ha, hv]

/-- Witness for C2 at a concrete admin store and a table missing every required column. -/
theorem validation_failure_leaves_store_unchanged_witness :
    upload_database aStore "boss" tBadCols =
      (aStore, .error ⟨400, "Invalid database format. Must contain the columns: Name, Guest count, Wedding party, and Code"⟩) :=
  validation_failure_leaves_store_unchanged aStore "boss" tBadCols _ (by rfl) (by rfl)

/-! ## Claim C3: `GET /admin/attendance` performs no admin check -/

/--
C3 counterexample: in `noAdminStore` the code `g1` resolves to a group with
`admin = false` (and no code resolves to an admin at all), yet
`get_attendance` — whose handler takes no caller code and performs no check —
succeeds and returns the totals, refuting "the operation fails
(Forbidden/NotFound) and the totals are not returned".
-/
theorem attendance_admin_only_counterexample :
    fetch_guest_group noAdminStore "g1" = .ok g1 ∧
    g1.admin = false ∧
    get_attendance noAdminStore = .ok ⟨0, 0⟩ ∧
    isOkE (get_attendance noAdminStore) = true :=
  ⟨rfl, rfl, rfl, rfl⟩

/--
C3 amended: the aggregate attendance handler performs no authorization at
all — even over a store in which every group has `admin = false` (so no
caller's code can resolve to an admin) it succeeds and returns the summed
totals.
-/
theorem attendance_returned_without_admin (s : Store)
    (_h : ∀ g ∈ s.docs, g.admin = false) :
    get_attendance s =
      .ok ⟨(s.docs.map party_total).sum, (s.docs.map ceremony_total).sum⟩ :=
  rfl

/-- Witness for the amended C3 at the admin-free concrete store. -/
theorem attendance_returned_without_admin_witness :
    get_attendance noAdminStore = .ok ⟨0, 0⟩ := by
  have h := attendance_returned_without_admin noAdminStore (by decide)
  rw [h]; rfl

/-! ## Claim C4: code stripping versus code uniqueness -/

/--
C4 counterexample: the import accepts `tCollide` although its codes
"AB 12" and "AB12" differ only by a space (the uniqueness check runs on the
raw codes, before any stripping), so the stored codes are not pairwise
distinct; and the code "X\t1" keeps its tab, so the stored codes are not the
all-whitespace-stripped values either.
-/
theorem code_stripping_counterexample :
    isOkE (upload_database aStore "boss" tCollide).snd = true ∧
    (upload_database aStore "boss" tCollide).fst.docs.map (fun g => g.code) =
      ["adm", "AB12", "AB12", "X\t1"] ∧
    ¬ ((upload_database aStore "boss" tCollide).fst.docs.map (fun g => g.code)).Nodup ∧
    (upload_database aStore "boss" tCollide).fst.docs.map (fun g => g.code) ≠
      (column tCollide "code").map (fun o => stripAllWhitespace (strCell o)) := by
  refine ⟨by rfl, by rfl, by decide, by decide⟩

/--
C4 amended: during import only space characters (U+0020) are removed from the
code values, and only after all five validation checks have run on the raw
table: for every table the import accepts, the stored codes are the
space-stripped input code values in row order, which need not be pairwise
distinct when raw codes differed only by spaces.
-/
theorem upload_stores_space_stripped_codes (s : Store) (c : String) (t : CSVTable)
    (h : isOkE (upload_database s c t).snd = true) :
    (upload_database s c t).fst.docs.map (fun g => g.code) = strippedCodes t :=
  upload_ok_codes h

/-- Witness for the amended C4: the stored codes of the accepted `tGood` upload. -/
theorem upload_stores_space_stripped_codes_witness :
    (upload_database aStore "boss" tGood).fst.docs.map (fun g => g.code) =
      strippedCodes tGood :=
  upload_stores_space_stripped_codes aStore "boss" tGood (by rfl)

/-! ## Claim C5: a successful import fully replaces the collection -/

lemma fetch_not_found {s2 : Store} {cd : String}
    (h : ∀ g ∈ s2.docs, g.code ≠ cd) :
    fetch_guest_group s2 cd = .error ⟨404, "Invalid user code, please login"⟩ := by
  unfold fetch_guest_group
  have : s2.docs.find? (fun g => g.code == cd) = none :=
    List.find?_eq_none.mpr (fun g hg => by simpa using h g hg)
  rw [this]

/--
C5 counterexample: the store holds a guest with code "AB12"; the uploaded
file's code values are "adm" and "AB 12", so the string "AB12" is absent from
the new file; yet after the (successful) import the code "AB12" still
resolves, because "AB 12" was stripped to "AB12" — refuting "resolves to
NotFound afterward".
-/
theorem absent_code_not_found_counterexample :
    fetch_guest_group preStore "AB12" = .ok oldGrp ∧
    (some "AB12") ∉ column tGood "code" ∧
    isOkE (upload_database preStore "boss" tGood).snd = true ∧
    isOkE (fetch_guest_group (upload_database preStore "boss" tGood).fst "AB12") = true := by
  refine ⟨by rfl, by decide, by rfl, by rfl⟩

/--
C5 amended: for every successful import of a table with n rows the post-import
collection contains exactly n rows, one per input row, and every code that was
present before the import but is absent from the new file's space-stripped
code values resolves to NotFound (404) afterward.
-/
theorem upload_replaces_collection (s : Store) (c : String) (t : CSVTable)
    (h : isOkE (upload_database s c t).snd = true) :
    (upload_database s c t).fst.docs.length = t.rows.length ∧
    ∀ cd : String, isOkE (fetch_guest_group s cd) = true → cd ∉ strippedCodes t →
      fetch_guest_group (upload_database s c t).fst cd =
        .error ⟨404, "Invalid user code, please login"⟩ := by
  refine ⟨upload_ok_length h, fun cd _ hcd => fetch_not_found (fun g hg hgc => ?_)⟩
  apply hcd
  rw [← upload_ok_codes h]
  exact hgc ▸ List.mem_map_of_mem _ hg

/--
Witness for the amended C5: the admin caller's own old code "boss" is absent
from the new file, so it resolves to 404 after the import, and the two-row
file yields a two-document collection.
-/
theorem upload_replaces_collection_witness :
    (upload_database preStore "boss" tGood).fst.docs.length = tGood.rows.length ∧
    fetch_guest_group (upload_database preStore "boss" tGood).fst "boss" =
      .error ⟨404, "Invalid user code, please login"⟩ :=
  ⟨(upload_replaces_collection preStore "boss" tGood (by rfl)).1,
   (upload_replaces_collection preStore "boss" tGood (by rfl)).2 "boss" (by rfl) (by decide)⟩

/-! ## Claim C6: exactly one admin row after a successful import -/

lemma upload_ok_names {s : Store} {c : String} {t : CSVTable}
    (h : isOkE (upload_database s c t).snd = true) :
    (upload_database s c t).fst.docs.map (fun g => g.display_name) =
      (column t "display_name").map strCell := by
  rcases upload_ok_state h with ⟨df, gs, hv, hdocs, hrel⟩
  rcases validation_ok hv with ⟨hdf, hcols, -, -, -, -⟩
  have hnm : "display_name" ∈ t.cols := hcols "display_name" (by simp [requiredCols])
  rcases colIdx_isSome_of_mem hnm with ⟨i, hi⟩
  have hidf : colIdx df.cols "display_name" = some i := by rw [hdf, mapCol_cols]; exact hi
  have h1 : gs.map (fun g => g.display_name) =
      df.rows.map (fun r => strCell (rowCell df r "display_name")) :=
    forall2_map_eq hrel _ _ (fun r g hrg => by
      rcases hrg with ⟨n, hb⟩
      exact (buildGroup_fields hb).2.1)
  have h2 : df.rows.map (fun r => strCell (rowCell df r "display_name")) =
      (column df "display_name").map strCell := by
    unfold column
    rw [hidf, List.map_map]
    exact List.map_congr_left (fun r _ => by
      simp [Function.comp, rowCell_eq_getD hidf])
  have h3 : column df "display_name" = column t "display_name" := by
    rw [hdf]
    exact column_mapCol_ne _ (by decide)
  rw [hdocs, h1, h2, h3]

lemma upload_ok_admin_flag {s : Store} {c : String} {t : CSVTable}
    (h : isOkE (upload_database s c t).snd = true) :
    ∀ g ∈ (upload_database s c t).fst.docs, g.admin = (g.display_name == "Admin") := by
  rcases upload_ok_state h with ⟨df, gs, hv, hdocs, hrel⟩
  intro g hg
  rw [hdocs] at hg
  rcases forall2_mem_right hrel hg with ⟨r, -, n, hb⟩
  rcases buildGroup_fields hb with ⟨-, hdn, hadm, -⟩
  rw [hadm, hdn]

lemma filterMap_id_full :
    ∀ l : List (Option String), (l.filterMap id).length = l.length →
      l.map strCell = l.filterMap id := by
  intro l
  induction l with
  | nil => simp
  | cons o rest ih =>
    cases o with
    | none =>
      intro hlen
      exfalso
      have hle := List.length_filterMap_le (id : Option String → Option String) rest
      simp [List.filterMap_cons] at hlen
      omega
    | some a =>
      intro hlen
      simp only [List.filterMap_cons, id] at hlen ⊢
      simp only [List.length_cons, Nat.succ.injEq] at hlen
      simp [List.map_cons, strCell, ih hlen]

lemma nunique_full {l : List (Option String)} (h : nunique l = l.length) :
    (l.filterMap id).Nodup ∧ l.map strCell = l.filterMap id := by
  have h1 : (l.filterMap id).length ≤ l.length :=
    List.length_filterMap_le (id : Option String → Option String) l
  have h2 : (l.filterMap id).dedup.length ≤ (l.filterMap id).length :=
    (List.dedup_sublist _).length_le
  unfold nunique at h
  have hd : (l.filterMap id).dedup = l.filterMap id :=
    (List.dedup_sublist _).eq_of_length (by omega)
  refine ⟨?_, filterMap_id_full l (by omega)⟩
  rw [← hd]
  exact List.nodup_dedup _

lemma count_admin_one {l : List (Option String)} (h : nunique l = l.length)
    (hm : some "Admin" ∈ l) : (l.map strCell).count "Admin" = 1 := by
  rcases nunique_full h with ⟨hnd, hmap⟩
  rw [hmap]
  exact List.count_eq_one_of_mem hnd (List.mem_filterMap.mpr ⟨some "Admin", hm, rfl⟩)

lemma filter_admin_count :
    ∀ l : List WeddingGuestGroup,
      (∀ g ∈ l, g.admin = (g.display_name == "Admin")) →
      (l.filter (fun g => g.admin)).length =
        (l.map (fun g => g.display_name)).count "Admin" := by
  intro l
  induction l with
  | nil => simp
  | cons g rest ih =>
    intro hall
    have hg := hall g (List.mem_cons_self ..)
    have hrest := ih (fun d hd => hall d (List.mem_cons_of_mem _ hd))
    by_cases hadm : g.display_name = "Admin" <;>
      simp [List.filter_cons, List.count_cons, hg, hadm, hrest]

/--
C6: after every successful import exactly one stored row has `admin = true`,
and a stored row is an admin precisely when its `display_name` is the literal
"Admin" (so every other row has `admin = false`).
-/
theorem exactly_one_admin_after_upload (s : Store) (c : String) (t : CSVTable)
    (h : isOkE (upload_database s c t).snd = true) :
    ((upload_database s c t).fst.docs.filter (fun g => g.admin)).length = 1 ∧
    ∀ g ∈ (upload_database s c t).fst.docs,
      (g.admin = true ↔ g.display_name = "Admin") := by
  rcases upload_ok_state h with ⟨df, gs, hv, hdocs, hrel⟩
  rcases validation_ok hv with ⟨-, hcols, hnamesU, -, hadmMem, -⟩
  have hnm : "display_name" ∈ t.cols := hcols "display_name" (by simp [requiredCols])
  have hlen : (column t "display_name").length = t.rows.length := column_length hnm
  constructor
  · rw [filter_admin_count _ (upload_ok_admin_flag h), upload_ok_names h]
    exact count_admin_one (by rw [hnamesU, hlen]) hadmMem
  · intro g hg
    rw [upload_ok_admin_flag h g hg]
    simp

/-- Witness for C6: the accepted `tGood` import yields exactly one admin row. -/
theorem exactly_one_admin_after_upload_witness :
    ((upload_database aStore "boss" tGood).fst.docs.filter (fun g => g.admin)).length = 1 :=
  (exactly_one_admin_after_upload aStore "boss" tGood (by rfl)).1

/-! ## Claim C10: imported rows are in the default response state -/

/--
C10: every row created by a successful import carries the model's default
response state — attendances -1, `plus_one` and `parking_required` false, and
no address, postcode, email, phone, dietary requirements or song choice — so
an import wipes all previously submitted guest responses, including for codes
that also appear in the new file.
-/
theorem upload_rows_default_state (s : Store) (c : String) (t : CSVTable)
    (h : isOkE (upload_database s c t).snd = true) :
    ∀ g ∈ (upload_database s c t).fst.docs,
      g.party_attendance = -1 ∧ g.ceremony_attendance = -1 ∧
      g.plus_one = false ∧ g.parking_required = false ∧
      g.address = none ∧ g.postcode = none ∧ g.email = none ∧ g.phone = none ∧
      g.dietary_requirements = none ∧ g.song_choice = none := by
  rcases upload_ok_state h with ⟨df, gs, hv, hdocs, hrel⟩
  intro g hg
  rw [hdocs] at hg
  rcases forall2_mem_right hrel hg with ⟨r, -, n, hb⟩
  rcases buildGroup_fields hb with
    ⟨-, -, -, hplus, hpa, hca, haddr, hpost, hmail, hphone, hdiet, hsong, hpark⟩
  exact ⟨hpa, hca, hplus, hpark, haddr, hpost, hmail, hphone, hdiet, hsong⟩

/-- The document stored for the Admin row of `tGood` (id 1, code "adm"). -/
def admStored : WeddingGuestGroup :=
  { id := 1, display_name := "Admin", party_count := 1, ceremony_count := 1,
    admin := true, code := "adm" }

/-- Witness for C10 at the Admin document created by the `tGood` import. -/
theorem upload_rows_default_state_witness :
    admStored.party_attendance = -1 ∧ admStored.ceremony_attendance = -1 ∧
    admStored.plus_one = false ∧ admStored.parking_required = false ∧
    admStored.address = none ∧ admStored.postcode = none ∧ admStored.email = none ∧
    admStored.phone = none ∧ admStored.dietary_requirements = none ∧
    admStored.song_choice = none :=
  upload_rows_default_state aStore "boss" tGood (by rfl) admStored (by decide)

/-! ## Claim C8: the aggregate sums the derived totals -/

/-- Fixture of four groups whose `party_total` values are 0, 2, 1 and 2. -/
def fixtureStore : Store :=
  ⟨[{ id := 0, display_name := "Test Group 1", party_count := 1, ceremony_count := 0,
      code := "t1" },
    { id := 1, display_name := "A & B", party_count := 2, ceremony_count := 2,
      party_attendance := 1, ceremony_attendance := 1, code := "t2" },
    { id := 2, display_name := "Carol", party_count := 1, ceremony_count := 1,
      party_attendance := 1, ceremony_attendance := 1, code := "t3" },
    { id := 3, display_name := "D & E", party_count := 2, ceremony_count := 2,
      party_attendance := 1, code := "t4" }], 4⟩

/--
C8: `get_attendance` reports the sum of the derived `party_total` and
`ceremony_total` (as §3 words them) over every stored group; over the fixture
with `party_total` values [0,2,1,2] it reports 5, which differs from the sum 6
of the raw stored `party_count` fields.
-/
theorem attendance_sums_derived_totals :
    (∀ s : Store, get_attendance s =
        .ok ⟨(s.docs.map party_totalSpec).sum, (s.docs.map ceremony_totalSpec).sum⟩) ∧
    get_attendance fixtureStore = .ok ⟨5, 3⟩ ∧
    (fixtureStore.docs.map party_total) = [0, 2, 1, 2] ∧
    (fixtureStore.docs.map (fun g => g.party_count)).sum = 6 ∧
    (5 : Int) ≠ 6 := by
  refine ⟨fun s => ?_, by rfl, by decide, by decide, by decide⟩
  have hp : party_total = party_totalSpec := funext party_total_eq_spec
  have hc : ceremony_total = ceremony_totalSpec := funext ceremony_total_eq_spec
  rw [get_attendance, hp, hc]

/-! ## Claim C9: `POST /rsvp` updates exactly one field of one group -/

lemma fetch_ok {s : Store} {code : String} {g : WeddingGuestGroup}
    (h : fetch_guest_group s code = .ok g) : g ∈ s.docs ∧ g.code = code := by
  unfold fetch_guest_group at h
  rcases hf : s.docs.find? (fun d => d.code == code) with _ | d <;> rw [hf] at h
  · simp at h
  · simp only [Except.ok.injEq] at h
    subst h
    exact ⟨List.mem_of_find?_eq_some hf, by simpa using List.find?_some hf⟩

lemma fetch_ok_find {s : Store} {code : String} {g : WeddingGuestGroup}
    (h : fetch_guest_group s code = .ok g) :
    s.docs.find? (fun d => d.code == code) = some g := by
  unfold fetch_guest_group at h
  rcases hf : s.docs.find? (fun d => d.code == code) with _ | d <;> rw [hf] at h
  · simp at h
  · simp only [Except.ok.injEq] at h
    rw [hf, h]

lemma find?_cons_true {α : Type} (p : α → Bool) (a : α) (l : List α) (h : p a = true) :
    (a :: l).find? p = some a := by
  simp [h]

lemma find?_cons_false {α : Type} (p : α → Bool) (a : α) (l : List α) (h : p a = false) :
    (a :: l).find? p = l.find? p := by
  simp [h]

lemma find?_map_update (l : List WeddingGuestGroup) (c : String)
    (g gU : WeddingGuestGroup)
    (hn : (l.map (fun d => d.id)).Nodup)
    (hf : l.find? (fun d => d.code == c) = some g)
    (hid : gU.id = g.id) (hcode : gU.code = g.code) :
    (l.map (fun d => if d.id = g.id then gU else d)).find? (fun d => d.code == c) =
      some gU := by
  induction l with
  | nil => simp at hf
  | cons d rest ih =>
    rcases hd : (d.code == c) with _ | _
    · rw [find?_cons_false (fun d => d.code == c) d rest hd] at hf
      have hgid : g.id ∈ rest.map (fun d => d.id) :=
        List.mem_map_of_mem _ (List.mem_of_find?_eq_some hf)
      have hdg : d.id ≠ g.id := by
        intro he
        rw [List.map_cons, List.nodup_cons] at hn
        exact hn.1 (he ▸ hgid)
      rw [List.map_cons, if_neg hdg,
        find?_cons_false (fun d => d.code == c) d
          (rest.map (fun d => if d.id = g.id then gU else d)) hd]
      exact ih (by rw [List.map_cons, List.nodup_cons] at hn; exact hn.2) hf
    · rw [find?_cons_true (fun d => d.code == c) d rest hd] at hf
      simp only [Option.some.injEq] at hf
      subst hf
      rw [List.map_cons, if_pos rfl]
      have hp : (gU.code == c) = true := by rw [hcode]; exact hd
      exact find?_cons_true (fun d => d.code == c) gU _ hp

lemma save_mem_update (s : Store) {g : WeddingGuestGroup} (gU : WeddingGuestGroup)
    (hg : g ∈ s.docs) (hid : gU.id = g.id) :
    save s gU = ⟨s.docs.map (fun d => if d.id = g.id then gU else d), s.nextId⟩ := by
  unfold save
  rw [if_pos ⟨g, hg, hid.symm⟩, hid]

/--
C9: for every store with distinct document ids and every RSVP request whose
code resolves to group `g`, a "party" (resp. "ceremony") request sets only
`party_attendance` (resp. `ceremony_attendance`) of `g` to the given status:
the handler returns the updated entity, the new collection is the old one
with exactly the document carrying `g`'s id replaced (every other group is
untouched), and a subsequent `GET /{code}` returns the updated entity.
-/
theorem rsvp_updates_single_field (s : Store) (c : String) (st : Int)
    (g : WeddingGuestGroup)
    (hn : (s.docs.map (fun d => d.id)).Nodup)
    (hg : fetch_guest_group s c = .ok g) :
    (rsvp s ⟨c, st, "party"⟩ =
        .ok (⟨s.docs.map (fun d => if d.id = g.id then { g with party_attendance := st } else d),
              s.nextId⟩,
             { g with party_attendance := st }) ∧
      get_code ⟨s.docs.map (fun d => if d.id = g.id then { g with party_attendance := st } else d),
                s.nextId⟩ c = .ok { g with party_attendance := st }) ∧
    (rsvp s ⟨c, st, "ceremony"⟩ =
        .ok (⟨s.docs.map (fun d => if d.id = g.id then { g with ceremony_attendance := st } else d),
              s.nextId⟩,
             { g with ceremony_attendance := st }) ∧
      get_code ⟨s.docs.map (fun d => if d.id = g.id then { g with ceremony_attendance := st } else d),
                s.nextId⟩ c = .ok { g with ceremony_attendance := st }) ∧
    (∀ d ∈ s.docs, d.id ≠ g.id →
      d ∈ s.docs.map (fun d2 => if d2.id = g.id then { g with party_attendance := st } else d2)) := by
  rcases fetch_ok hg with ⟨hmem, hcode⟩
  have hfind := fetch_ok_find hg
  have hrp : rsvp s ⟨c, st, "party"⟩ =
      .ok (save s { g with party_attendance := st }, { g with party_attendance := st }) := by
    unfold rsvp
    rw [hg]
    rfl
  have hrc : rsvp s ⟨c, st, "ceremony"⟩ =
      .ok (save s { g with ceremony_attendance := st }, { g with ceremony_attendance := st }) := by
    unfold rsvp
    rw [hg]
    rfl
  refine ⟨⟨?_, ?_⟩, ⟨?_, ?_⟩, ?_⟩
  · rw [hrp, save_mem_update s { g with party_attendance := st } hmem rfl]
  · unfold get_code fetch_guest_group
    rw [find?_map_update s.docs c g { g with party_attendance := st } hn hfind rfl rfl]
  · rw [hrc, save_mem_update s { g with ceremony_attendance := st } hmem rfl]
  · unfold get_code fetch_guest_group
    rw [find?_map_update s.docs c g { g with ceremony_attendance := st } hn hfind rfl rfl]
  · intro d hd hdid
    exact List.mem_map.mpr ⟨d, hd, by rw [if_neg hdid]⟩

/--
Witness for C9: on a concrete two-group store (the spec's scenario with codes
"test1"/"test2" and no prior response), a party RSVP with status 1 returns the
group with `party_attendance = 1` and a subsequent `GET /test1` reads it back.
-/
theorem rsvp_updates_single_field_witness :
    rsvp fixtureStore ⟨"t1", 1, "party"⟩ =
      .ok (⟨fixtureStore.docs.map
              (fun d => if d.id = (0 : Nat) then
                { id := 0, display_name := "Test Group 1", party_count := 1,
                  ceremony_count := 0, party_attendance := 1, code := "t1" } else d),
            fixtureStore.nextId⟩,
           { id := 0, display_name := "Test Group 1", party_count := 1,
             ceremony_count := 0, party_attendance := 1, code := "t1" }) := by
  have h := (rsvp_updates_single_field fixtureStore "t1" 1
      { id := 0, display_name := "Test Group 1", party_count := 1, ceremony_count := 0,
        code := "t1" } (by decide) (by rfl)).1.1
  exact h

end Wedding
